import Mathlib

/-
Shallow embedding of the xcat3 SQLAlchemy storage backend
(xcat3/db/sqlalchemy/api.py), restricted to the parts the reservation
protocol, the conductor liveness registry and the cascade-delete /
error-translation claims depend on.

The database is a value of type `DBState`.  Each write operation mirrors
one method of `Connection`: the body of the Python `with
_session_for_write():` block becomes a function `DBState → Except XErr
(α × DBState)` and the wrapper `withWriteSession` supplies the
enginefacade transaction semantics (commit the new state on normal
completion, roll back to the entry state when an exception escapes).

Timestamps (`timeutils.utcnow()`) are passed in explicitly as an `Int`
parameter `now`; store-assigned primary keys are passed in as explicit
parameters.  Uniqueness constraints of the model layer (models.py is not
part of the sources) are taken from the specification: Node.name,
Nics.mac and Conductor.hostname are unique, id columns are primary keys.
-/

namespace XCat3

/-- Row of the nodes table: the fields the reservation protocol reads. -/
structure Node where
  id : Nat
  name : String
  reservation : Option String
  deriving Repr, DecidableEq

/-- Row of the nics table (network interfaces), keyed by `id`, owned by the
node `node_id`, with the globally unique hardware address `mac`. -/
structure Nic where
  id : Nat
  node_id : Nat
  mac : String
  deriving Repr, DecidableEq

/-- Row of the conductors table: liveness registry state of one worker. -/
structure Conductor where
  hostname : String
  online : Bool
  updated_at : Int
  deriving Repr, DecidableEq

/-- The whole database. -/
structure DBState where
  nodes : List Node
  nics : List Nic
  conductors : List Conductor
  deriving Repr, DecidableEq

/-- Errors an operation can surface.  The first block are xcat3 domain
errors (xcat3.common.exception); `dbDuplicateEntry` is the raw oslo_db
`DBDuplicateEntry` storage error (with its `columns` attribute) and
`multipleResultsFound` the raw SQLAlchemy `MultipleResultsFound` ORM
error — both are storage-layer types, not domain errors. -/
inductive XErr where
  | nodeNotFound
  | nodeLocked (host : Option String)
  | nodeNotLocked
  | nicNotFound
  | conductorNotFound
  | conductorAlreadyRegistered
  | duplicateName
  | macAlreadyExists
  | nicAlreadyExists
  | invalidParameterValue
  | dbDuplicateEntry (columns : List String)
  | multipleResultsFound
  deriving Repr, DecidableEq

/-- Storage-layer duplicate/ORM errors, as opposed to xcat3 domain error
kinds.  These are the types the spec says must never reach a caller. -/
def XErr.isStorage : XErr → Bool
  | .dbDuplicateEntry _ => true
  | .multipleResultsFound => true
  | _ => false

instance {ε α : Type} [DecidableEq ε] [DecidableEq α] : DecidableEq (Except ε α) :=
  fun x y =>
    match x, y with
    | .ok a, .ok b =>
        if h : a = b then .isTrue (by rw [h])
        else .isFalse (fun hc => h (Except.ok.inj hc))
    | .error e, .error f =>
        if h : e = f then .isTrue (by rw [h])
        else .isFalse (fun hc => h (Except.error.inj hc))
    | .ok _, .error _ => .isFalse (fun hc => Except.noConfusion hc)
    | .error _, .ok _ => .isFalse (fun hc => Except.noConfusion hc)

/-- Result of SQLAlchemy `query.one()`: `NoResultFound` on zero rows,
the row on exactly one, `MultipleResultsFound` on several. -/
inductive OneResult (α : Type) where
  | noRow
  | one (a : α)
  | several
  deriving Repr, DecidableEq

/-- Evaluate `query.one()` on the rows matched by the query. -/
def listOne {α : Type} : List α → OneResult α
  | [] => .noRow
  | [a] => .one a
  | _ :: _ :: _ => .several

/-- Semantics of `with _session_for_write():` — run the block body; commit
its final state on normal completion, roll back to the entry state when
an exception escapes the block. -/
def withWriteSession {α : Type} (body : DBState → Except XErr (α × DBState))
    (s : DBState) : Except XErr α × DBState :=
  match body s with
  | .ok (a, s') => (.ok a, s')
  | .error e => (.error e, s)

/-- Python truthiness of a nullable string column (`if node['reservation']:`
is false both for NULL and for the empty string). -/
def pyTruthy : Option String → Bool
  | none => false
  | some t => !t.isEmpty

/-- Predicate of the acquire UPDATE (`name IN node_names AND reservation IS
NULL`). -/
def freeNamed (node_names : List String) (n : Node) : Bool :=
  decide (n.name ∈ node_names) && n.reservation.isNone

/-- Predicate of the release UPDATE (`name IN node_names AND reservation =
tag`). -/
def heldNamed (tag : String) (node_names : List String) (n : Node) : Bool :=
  decide (n.name ∈ node_names) && decide (n.reservation = some tag)

/-- Membership predicate of the name selector (`name IN node_names`). -/
def named (node_names : List String) (n : Node) : Bool :=
  decide (n.name ∈ node_names)

/-- One row after the acquire UPDATE ran. -/
def acquireRow (tag : String) (node_names : List String) (n : Node) : Node :=
  if freeNamed node_names n then { n with reservation := some tag } else n

/-- One row after the release UPDATE ran. -/
def releaseRow (tag : String) (node_names : List String) (n : Node) : Node :=
  if heldNamed tag node_names n then { n with reservation := none } else n

/-- Connection.reserve_nodes: conditionally set `reservation = tag` on the
free rows among the named nodes, re-read the named nodes, raise
`NodeNotFound` when none was matched, `NodeLocked` when fewer rows were
updated than names were passed. -/
def reserveNodes (tag : String) (node_names : List String) (s : DBState) :
    Except XErr (List Node) × DBState :=
  withWriteSession (fun s =>
    let count := (s.nodes.filter (freeNamed node_names)).length
    let nodes' := s.nodes.map (acquireRow tag node_names)
    let selected := nodes'.filter (named node_names)
    if selected.isEmpty then .error .nodeNotFound
    else if count = node_names.length then .ok (selected, { s with nodes := nodes' })
    else .error (.nodeLocked none)) s

/-- Connection.release_nodes: conditionally set `reservation = NULL` on the
named rows held by `tag`; on a count shortfall re-read the named rows,
raise `NodeNotFound` when none exists, `NodeLocked` (with the holder) at
the first row whose reservation is still truthy — and fall through to a
normal (committing) return when every re-read reservation is falsy. -/
def releaseNodes (tag : String) (node_names : List String) (s : DBState) :
    Except XErr Unit × DBState :=
  withWriteSession (fun s =>
    let count := (s.nodes.filter (heldNamed tag node_names)).length
    let nodes' := s.nodes.map (releaseRow tag node_names)
    if count = node_names.length then .ok ((), { s with nodes := nodes' })
    else
      let selected := nodes'.filter (named node_names)
      if selected.isEmpty then .error .nodeNotFound
      else
        match selected.find? (fun n => pyTruthy n.reservation) with
        | some node => .error (.nodeLocked node.reservation)
        | none => .ok ((), { s with nodes := nodes' })) s

/-- Predicate of the single-node acquire UPDATE (`id = node_id AND
reservation IS NULL`). -/
def idFree (node_id : Nat) (n : Node) : Bool :=
  decide (n.id = node_id) && n.reservation.isNone

/-- Predicate of the single-node release UPDATE (`id = node_id AND
reservation = tag`). -/
def idHeld (tag : String) (node_id : Nat) (n : Node) : Bool :=
  decide (n.id = node_id) && decide (n.reservation = some tag)

/-- One row after the single-node acquire UPDATE ran. -/
def acquireRowById (tag : String) (node_id : Nat) (n : Node) : Node :=
  if idFree node_id n then { n with reservation := some tag } else n

/-- One row after the single-node release UPDATE ran. -/
def releaseRowById (tag : String) (node_id : Nat) (n : Node) : Node :=
  if idHeld tag node_id n then { n with reservation := none } else n

/-- Connection.reserve_node: single-node conditional acquire by id
(`add_identity_filter` with an integer id filters on the id column). -/
def reserveNode (tag : String) (node_id : Nat) (s : DBState) :
    Except XErr Node × DBState :=
  withWriteSession (fun s =>
    let count := (s.nodes.filter (idFree node_id)).length
    let nodes' := s.nodes.map (acquireRowById tag node_id)
    match listOne (nodes'.filter (fun n => decide (n.id = node_id))) with
    | .noRow => .error .nodeNotFound
    | .several => .error .multipleResultsFound
    | .one node =>
        if count = 1 then .ok (node, { s with nodes := nodes' })
        else .error (.nodeLocked node.reservation)) s

/-- Connection.release_node: single-node conditional release by id; on a
count shortfall `query.one()` decides between `NodeNotFound` (no row),
`NodeNotLocked` (reservation is NULL) and `NodeLocked` with the holder. -/
def releaseNode (tag : String) (node_id : Nat) (s : DBState) :
    Except XErr Unit × DBState :=
  withWriteSession (fun s =>
    let count := (s.nodes.filter (idHeld tag node_id)).length
    let nodes' := s.nodes.map (releaseRowById tag node_id)
    if count = 1 then .ok ((), { s with nodes := nodes' })
    else
      match listOne (nodes'.filter (fun n => decide (n.id = node_id))) with
      | .noRow => .error .nodeNotFound
      | .several => .error .multipleResultsFound
      | .one node =>
          if node.reservation.isNone then .error .nodeNotLocked
          else .error (.nodeLocked node.reservation)) s

/-- Connection.destroy_node: find the node by name (`query.one()`), delete
the nics rows owned by it, then delete the node row, all in one
transaction. -/
def destroyNode (node_name : String) (s : DBState) :
    Except XErr Unit × DBState :=
  withWriteSession (fun s =>
    match listOne (s.nodes.filter (fun n => decide (n.name = node_name))) with
    | .noRow => .error .nodeNotFound
    | .several => .error .multipleResultsFound
    | .one node =>
        .ok ((), { s with
          nics := s.nics.filter (fun nic => !decide (nic.node_id = node.id)),
          nodes := s.nodes.filter (fun n => !decide (n.name = node_name)) })) s

/-- Connection.get_nic_by_id: `query.one()` on the nics rows with this id,
translating `NoResultFound` to `NicNotFound`. -/
def getNicById (id : Nat) (s : DBState) : Except XErr Nic :=
  match listOne (s.nics.filter (fun nic => decide (nic.id = id))) with
  | .noRow => .error .nicNotFound
  | .several => .error .multipleResultsFound
  | .one nic => .ok nic

/-- Connection.get_conductors: every conductor row whose `updated_at` is
strictly newer than `utcnow() - heartbeat_timeout`.  The query has no
condition on the `online` column. -/
def getConductors (now interval : Int) (s : DBState) : List Conductor :=
  s.conductors.filter (fun c => decide (now - interval < c.updated_at))

/-- Connection.register_conductor: look the hostname up; an online row with
`update_existing` unset raises `ConductorAlreadyRegistered`; otherwise the
row is created or updated and `online`/`updated_at` are set
unconditionally. -/
def registerConductor (hostname : String) (now : Int) (update_existing : Bool)
    (s : DBState) : Except XErr Conductor × DBState :=
  withWriteSession (fun s =>
    match listOne (s.conductors.filter (fun c => decide (c.hostname = hostname))) with
    | .several => .error .multipleResultsFound
    | .one ref =>
        if ref.online && !update_existing then .error .conductorAlreadyRegistered
        else
          let ref' := { ref with online := true, updated_at := now }
          .ok (ref', { s with conductors := s.conductors.map (fun c =>
            if decide (c.hostname = hostname) then ref' else c) })
    | .noRow =>
        let ref' : Conductor := { hostname := hostname, online := true, updated_at := now }
        .ok (ref', { s with conductors := s.conductors ++ [ref'] })) s

/-- Connection.get_conductor: `query.one()` over rows with this hostname
and `online=True`, translating `NoResultFound` to `ConductorNotFound`. -/
def getConductor (hostname : String) (s : DBState) : Except XErr Conductor :=
  match listOne (s.conductors.filter (fun c =>
      decide (c.hostname = hostname) && c.online)) with
  | .noRow => .error .conductorNotFound
  | .several => .error .multipleResultsFound
  | .one c => .ok c

/-- Connection.unregister_conductor: conditional update setting
`online=False` on the row with this hostname and `online=True`; zero rows
updated raises `ConductorNotFound`. -/
def unregisterConductor (hostname : String) (s : DBState) :
    Except XErr Unit × DBState :=
  withWriteSession (fun s =>
    let count := (s.conductors.filter (fun c =>
      decide (c.hostname = hostname) && c.online)).length
    if count = 0 then .error .conductorNotFound
    else .ok ((), { s with conductors := s.conductors.map (fun c =>
      if decide (c.hostname = hostname) && c.online
      then { c with online := false } else c) })) s

/-- One conductor row after the heartbeat UPDATE ran. -/
def touchRow (hostname : String) (now : Int) (c : Conductor) : Conductor :=
  if decide (c.hostname = hostname)
  then { c with updated_at := now, online := true } else c

/-- Connection.touch_conductor: unconditional update of the row with this
hostname, setting `updated_at = utcnow()` and `online=True`; zero rows
updated raises `ConductorNotFound`. -/
def touchConductor (hostname : String) (now : Int) (s : DBState) :
    Except XErr Unit × DBState :=
  withWriteSession (fun s =>
    let count := (s.conductors.filter (fun c => decide (c.hostname = hostname))).length
    if count = 0 then .error .conductorNotFound
    else .ok ((), { s with conductors := s.conductors.map (touchRow hostname now) })) s

/-- Connection.create_node, nic insertion loop: flush each nic row in turn;
a hardware-address collision (with a stored row or a row flushed earlier
in the same loop) raises `DBDuplicateEntry` with `columns = ['mac']`,
which the handler in create_node re-raises as is. -/
def insertNics (nodeId : Nat) (existing : List Nic) (nextId : Nat) :
    List String → Except XErr (List Nic)
  | [] => .ok existing
  | mac :: rest =>
      if existing.any (fun nic => decide (nic.mac = mac)) then
        .error (.dbDuplicateEntry ["mac"])
      else insertNics nodeId (existing ++ [{ id := nextId, node_id := nodeId, mac := mac }]) (nextId + 1) rest

/-- Connection.create_node: flush the node row (a name collision raises
`DBDuplicateEntry` with `columns = ['name']`, translated to
`DuplicateName`), then flush the nics rows of `nics_info`; a mac
collision re-raises the raw `DBDuplicateEntry` (`if 'mac' in exc.columns:
raise exc`).  Node.name uniqueness is the model-layer constraint stated
by the spec (models.py is not among the sources). -/
def createNode (name : String) (macs : List String) (nodeId : Nat) (s : DBState) :
    Except XErr Node × DBState :=
  withWriteSession (fun s =>
    if s.nodes.any (fun n => decide (n.name = name)) then
      .error .duplicateName
    else
      let node : Node := { id := nodeId, name := name, reservation := none }
      match insertNics nodeId s.nics s.nics.length macs with
      | .error e => .error e
      | .ok nics' => .ok (node, { s with nodes := s.nodes ++ [node], nics := nics' })) s

/-- Connection.update_node via _do_update_node: find the row by id
(`query.one()` under a row lock), apply the new values; the flush on
transaction exit raises `DBDuplicateEntry` with `columns = ['name']` on a
name collision, which update_node translates to `DuplicateName` (any
other duplicate-key column would be re-raised raw, but name is the only
unique non-key Node column the spec states). -/
def updateNode (node_id : Nat) (newName : Option String) (s : DBState) :
    Except XErr Node × DBState :=
  withWriteSession (fun s =>
    match listOne (s.nodes.filter (fun n => decide (n.id = node_id))) with
    | .noRow => .error .nodeNotFound
    | .several => .error .multipleResultsFound
    | .one node =>
        let node' := { node with name := newName.getD node.name }
        if s.nodes.any (fun m => decide (m.id ≠ node.id) && decide (m.name = node'.name)) then
          .error .duplicateName
        else .ok (node', { s with nodes := s.nodes.map (fun m =>
          if decide (m.id = node_id) then node' else m) })) s

/-- Uniqueness of the Node.name column (model-layer unique constraint). -/
abbrev NamesUnique (s : DBState) : Prop := (s.nodes.map Node.name).Nodup

/-- Uniqueness of the Node.id primary key. -/
abbrev NodeIdsUnique (s : DBState) : Prop := (s.nodes.map Node.id).Nodup

/-- Uniqueness of the Nics.id primary key. -/
abbrev NicIdsUnique (s : DBState) : Prop := (s.nics.map Nic.id).Nodup

/-- Uniqueness of the Conductor.hostname column. -/
abbrev HostsUnique (s : DBState) : Prop := (s.conductors.map Conductor.hostname).Nodup

/-- On a table whose `key` column has no duplicates, a query whose predicate
pins the key down to the key of a matching row `a` returns exactly `[a]`. -/
theorem filter_eq_singleton_of_key {α κ : Type} [DecidableEq κ] (key : α → κ)
    {l : List α} {a : α} (p : α → Bool) (hnd : (l.map key).Nodup) (ha : a ∈ l)
    (hpa : p a = true) (hkey : ∀ b ∈ l, p b = true → key b = key a) :
    l.filter p = [a] := by
  induction l with
  | nil => exact absurd ha (List.not_mem_nil a)
  | cons x xs ih =>
    rw [List.map_cons, List.nodup_cons] at hnd
    rcases List.mem_cons.mp ha with rfl | hmem
    · rw [List.filter_cons_of_pos hpa]
      have hnil : xs.filter p = [] := by
        refine List.filter_eq_nil_iff.mpr (fun b hb hpb => absurd ?_ hnd.1)
        have hbmem := List.mem_map_of_mem key hb
        rwa [hkey b (List.mem_cons_of_mem _ hb) hpb] at hbmem
      rw [hnil]
    · have hpx : ¬ p x = true := by
        intro hpx
        refine absurd ?_ hnd.1
        have hamem := List.mem_map_of_mem key hmem
        rwa [← hkey x (List.mem_cons_self x xs) hpx] at hamem
      rw [List.filter_cons_of_neg (by simpa using hpx)]
      exact ih hnd.2 hmem (fun b hb hpb => hkey b (List.mem_cons_of_mem _ hb) hpb)

/-- On a table whose `key` column has no duplicates, a query whose predicate
pins the key down to one value matches at most one row. -/
theorem length_filter_le_one_of_key {α κ : Type} [DecidableEq κ] (key : α → κ)
    {l : List α} (p : α → Bool) (hnd : (l.map key).Nodup) {k : κ}
    (hkey : ∀ b ∈ l, p b = true → key b = k) :
    (l.filter p).length ≤ 1 := by
  induction l with
  | nil => simp
  | cons x xs ih =>
    rw [List.map_cons, List.nodup_cons] at hnd
    by_cases hpx : p x = true
    · rw [List.filter_cons_of_pos hpx]
      have hnil : xs.filter p = [] := by
        refine List.filter_eq_nil_iff.mpr (fun b hb hpb => absurd ?_ hnd.1)
        have hbmem := List.mem_map_of_mem key hb
        rwa [hkey b (List.mem_cons_of_mem _ hb) hpb,
          ← hkey x (List.mem_cons_self x xs) hpx] at hbmem
      simp [hnil]
    · rw [List.filter_cons_of_neg (by simpa using hpx)]
      exact ih hnd.2 (fun b hb hpb => hkey b (List.mem_cons_of_mem _ hb) hpb)

/-- A result set of at most one row is an empty or a singleton list. -/
theorem eq_nil_or_singleton_of_length_le_one {α : Type} {l : List α}
    (h : l.length ≤ 1) : l = [] ∨ ∃ a, l = [a] := by
  match l with
  | [] => exact Or.inl rfl
  | [a] => exact Or.inr ⟨a, rfl⟩
  | a :: b :: t => simp at h

@[simp] theorem acquireRow_name (tag : String) (names : List String) (n : Node) :
    (acquireRow tag names n).name = n.name := by
  unfold acquireRow; split <;> rfl

@[simp] theorem acquireRow_id (tag : String) (names : List String) (n : Node) :
    (acquireRow tag names n).id = n.id := by
  unfold acquireRow; split <;> rfl

@[simp] theorem releaseRow_name (tag : String) (names : List String) (n : Node) :
    (releaseRow tag names n).name = n.name := by
  unfold releaseRow; split <;> rfl

@[simp] theorem releaseRow_id (tag : String) (names : List String) (n : Node) :
    (releaseRow tag names n).id = n.id := by
  unfold releaseRow; split <;> rfl

@[simp] theorem acquireRowById_id (tag : String) (node_id : Nat) (n : Node) :
    (acquireRowById tag node_id n).id = n.id := by
  unfold acquireRowById; split <;> rfl

@[simp] theorem releaseRowById_id (tag : String) (node_id : Nat) (n : Node) :
    (releaseRowById tag node_id n).id = n.id := by
  unfold releaseRowById; split <;> rfl

@[simp] theorem touchRow_hostname (hostname : String) (now : Int) (c : Conductor) :
    (touchRow hostname now c).hostname = c.hostname := by
  unfold touchRow; split <;> rfl

/-- The acquire UPDATE does not change the list of node names. -/
theorem map_name_acquire (tag : String) (names : List String) (l : List Node) :
    (l.map (acquireRow tag names)).map Node.name = l.map Node.name := by
  rw [List.map_map]
  exact List.map_congr_left (fun n _ => acquireRow_name tag names n)

/-- The release UPDATE does not change the list of node names. -/
theorem map_name_release (tag : String) (names : List String) (l : List Node) :
    (l.map (releaseRow tag names)).map Node.name = l.map Node.name := by
  rw [List.map_map]
  exact List.map_congr_left (fun n _ => releaseRow_name tag names n)

/-- The single-node UPDATEs do not change the list of node ids. -/
theorem map_id_acquireById (tag : String) (node_id : Nat) (l : List Node) :
    (l.map (acquireRowById tag node_id)).map Node.id = l.map Node.id := by
  rw [List.map_map]
  exact List.map_congr_left (fun n _ => acquireRowById_id tag node_id n)

theorem map_id_releaseById (tag : String) (node_id : Nat) (l : List Node) :
    (l.map (releaseRowById tag node_id)).map Node.id = l.map Node.id := by
  rw [List.map_map]
  exact List.map_congr_left (fun n _ => releaseRowById_id tag node_id n)

/-- Under the name uniqueness constraint, any query result has pairwise
distinct names. -/
theorem filter_names_nodup {s : DBState} (hu : NamesUnique s) (p : Node → Bool) :
    ((s.nodes.filter p).map Node.name).Nodup :=
  hu.sublist ((List.filter_sublist s.nodes).map Node.name)

/-- Every name of a row matched by the acquire UPDATE is a requested name. -/
theorem free_names_subset (names : List String) (s : DBState) :
    ∀ x ∈ (s.nodes.filter (freeNamed names)).map Node.name, x ∈ names := by
  intro x hx
  rcases List.mem_map.mp hx with ⟨n, hn, rfl⟩
  have hn2 := (List.mem_filter.mp hn).2
  unfold freeNamed at hn2
  simp only [Bool.and_eq_true, decide_eq_true_eq] at hn2
  exact hn2.1

/-- A requested name that names no matched free row forces the acquire
UPDATE row count strictly under the request count. -/
theorem free_count_lt (names : List String) (s : DBState) (hu : NamesUnique s)
    {nm : String} (hnm : nm ∈ names)
    (hout : nm ∉ (s.nodes.filter (freeNamed names)).map Node.name) :
    (s.nodes.filter (freeNamed names)).length < names.length := by
  have hnd := filter_names_nodup hu (freeNamed names)
  have hsubset : (nm :: (s.nodes.filter (freeNamed names)).map Node.name) ⊆ names := by
    intro x hx
    rcases List.mem_cons.mp hx with rfl | hx
    · exact hnm
    · exact free_names_subset names s x hx
  have hcons : (nm :: (s.nodes.filter (freeNamed names)).map Node.name).Nodup :=
    List.nodup_cons.mpr ⟨hout, hnd⟩
  have hle := (hcons.subperm hsubset).length_le
  simp only [List.length_cons, List.length_map] at hle
  omega

/-- A full acquire UPDATE row count forces the request list itself to be
duplicate-free. -/
theorem names_nodup_of_free_count_eq (names : List String) (s : DBState)
    (hu : NamesUnique s)
    (heq : (s.nodes.filter (freeNamed names)).length = names.length) :
    names.Nodup := by
  have hnd := filter_names_nodup hu (freeNamed names)
  have hsp := hnd.subperm (free_names_subset names s)
  have hperm := hsp.perm_of_length_le (by simp [List.length_map, heq])
  exact hperm.nodup_iff.mp hnd

/-- A named row that is not free forces the acquire UPDATE row count
strictly under the request count. -/
theorem free_count_lt_of_held (names : List String) (s : DBState)
    (hu : NamesUnique s) {n : Node} (hn : n ∈ s.nodes) (hname : n.name ∈ names)
    (hres : n.reservation ≠ none) :
    (s.nodes.filter (freeNamed names)).length < names.length := by
  refine free_count_lt names s hu hname (fun hmem => ?_)
  rcases List.mem_map.mp hmem with ⟨f, hf, hfname⟩
  have hfmem := (List.mem_filter.mp hf).1
  have hffree := (List.mem_filter.mp hf).2
  unfold freeNamed at hffree
  simp only [Bool.and_eq_true, decide_eq_true_eq, Option.isNone_iff_eq_none] at hffree
  have : f = n := List.inj_on_of_nodup_map hu hfmem hn hfname
  exact hres (this ▸ hffree.2)

/-- A requested name naming no row at all forces the acquire UPDATE row
count strictly under the request count. -/
theorem free_count_lt_of_missing (names : List String) (s : DBState)
    (hu : NamesUnique s) {nm : String} (hnm : nm ∈ names)
    (hmiss : ∀ n ∈ s.nodes, n.name ≠ nm) :
    (s.nodes.filter (freeNamed names)).length < names.length := by
  refine free_count_lt names s hu hnm (fun hmem => ?_)
  rcases List.mem_map.mp hmem with ⟨f, hf, hfname⟩
  exact hmiss f (List.mem_filter.mp hf).1 hfname

/-- A result set with a member is not empty. -/
theorem isEmpty_false_of_mem {α : Type} {l : List α} {a : α} (h : a ∈ l) :
    l.isEmpty = false := by
  cases hE : l.isEmpty
  · rfl
  · rw [List.isEmpty_iff.mp hE] at h
    exact absurd h (List.not_mem_nil a)

/-- Unfolding of reserve_nodes into its three outcomes: NotFound rollback,
full-count commit, short-count Locked rollback. -/
theorem reserveNodes_eq (tag : String) (names : List String) (s : DBState) :
    reserveNodes tag names s =
      if ((s.nodes.map (acquireRow tag names)).filter (named names)).isEmpty = true
      then (.error .nodeNotFound, s)
      else if (s.nodes.filter (freeNamed names)).length = names.length
      then (.ok ((s.nodes.map (acquireRow tag names)).filter (named names)),
            { s with nodes := s.nodes.map (acquireRow tag names) })
      else (.error (.nodeLocked none), s) := by
  unfold reserveNodes withWriteSession
  by_cases h1 : ((s.nodes.map (acquireRow tag names)).filter (named names)).isEmpty = true
  · simp [h1]
  · by_cases h2 : (s.nodes.filter (freeNamed names)).length = names.length
    · simp [h1, h2]
    · simp [h1, h2]

/-- The re-read row of a node named in the request witnesses a non-empty
`query.all()` result in reserve_nodes. -/
theorem reserve_selected_mem (tag : String) {names : List String} {s : DBState}
    {n : Node} (hn : n ∈ s.nodes) (hname : n.name ∈ names) :
    acquireRow tag names n ∈ (s.nodes.map (acquireRow tag names)).filter (named names) := by
  refine List.mem_filter.mpr ⟨List.mem_map_of_mem _ hn, ?_⟩
  unfold named
  simp [hname]

/-- When no requested name has a row, reserve_nodes raises NotFound and the
transaction rolls back. -/
theorem reserveNodes_no_named (tag : String) (names : List String) (s : DBState)
    (hnone : ∀ n ∈ s.nodes, n.name ∉ names) :
    (reserveNodes tag names s).1 = .error .nodeNotFound ∧
    (reserveNodes tag names s).2 = s := by
  have hsel : (s.nodes.map (acquireRow tag names)).filter (named names) = [] := by
    refine List.filter_eq_nil_iff.mpr (fun m hm hnamed => ?_)
    rcases List.mem_map.mp hm with ⟨n', hn', rfl⟩
    unfold named at hnamed
    rw [acquireRow_name] at hnamed
    exact hnone n' hn' (of_decide_eq_true hnamed)
  rw [reserveNodes_eq, hsel]
  simp

/-- C1 counterexample: with a name list matching no row at all, reserve_nodes
neither succeeds nor raises Locked — it raises NotFound. -/
theorem reserve_nodes_all_missing_notfound :
    (reserveNodes "t1" ["n1"] ⟨[], [], []⟩).1 = .error .nodeNotFound ∧
    (reserveNodes "t1" ["n1"] ⟨[], [], []⟩).1 ≠ .error (.nodeLocked none) := by
  refine ⟨rfl, by decide⟩

/-- C1 (amended): under the Node.name uniqueness constraint, whenever at
least one requested name has a row, reserve_nodes either succeeds with every
named row holding `reservation = tag`, or raises Locked and leaves the whole
state exactly as it was (so a previously free row still has a null
reservation); when no requested name has a row it raises NotFound, likewise
leaving the state unchanged. -/
theorem reserve_nodes_atomic (tag : String) (names : List String) (s : DBState)
    (hu : NamesUnique s) :
    ((∃ n ∈ s.nodes, n.name ∈ names) →
      (∃ ns, (reserveNodes tag names s).1 = .ok ns ∧
        ∀ n ∈ (reserveNodes tag names s).2.nodes, n.name ∈ names →
          n.reservation = some tag) ∨
      ((reserveNodes tag names s).1 = .error (.nodeLocked none) ∧
        (reserveNodes tag names s).2 = s)) ∧
    ((∀ n ∈ s.nodes, n.name ∉ names) →
      (reserveNodes tag names s).1 = .error .nodeNotFound ∧
      (reserveNodes tag names s).2 = s) := by
  constructor
  · rintro ⟨n, hn, hname⟩
    have hne := isEmpty_false_of_mem (reserve_selected_mem tag hn hname)
    rw [reserveNodes_eq]
    simp only [hne, Bool.false_eq_true, if_false]
    by_cases hc : (s.nodes.filter (freeNamed names)).length = names.length
    · left
      simp only [hc, if_true]
      refine ⟨_, rfl, ?_⟩
      intro m hm hmname
      rcases List.mem_map.mp hm with ⟨n', hn', rfl⟩
      rw [acquireRow_name] at hmname
      have hfree : n'.reservation = none := by
        by_contra hres
        exact absurd hc (Nat.ne_of_lt (free_count_lt_of_held names s hu hn' hmname hres))
      have : freeNamed names n' = true := by
        unfold freeNamed
        simp [hmname, hfree]
      unfold acquireRow
      rw [if_pos this]
    · right
      simp [hc]
  · exact reserveNodes_no_named tag names s

/-- C1 witness: a database holding the single free node n1, requested as
`["n1"]`, satisfies the hypotheses of reserve_nodes_atomic. -/
theorem reserve_nodes_atomic_witness :
    NamesUnique ⟨[⟨1, "n1", none⟩], [], []⟩ ∧
    (∃ n ∈ (DBState.mk [⟨1, "n1", none⟩] [] []).nodes, n.name ∈ ["n1"]) ∧
    ((∃ ns, (reserveNodes "t1" ["n1"] ⟨[⟨1, "n1", none⟩], [], []⟩).1 = .ok ns ∧
        ∀ n ∈ (reserveNodes "t1" ["n1"] ⟨[⟨1, "n1", none⟩], [], []⟩).2.nodes,
          n.name ∈ ["n1"] → n.reservation = some "t1") ∨
      ((reserveNodes "t1" ["n1"] ⟨[⟨1, "n1", none⟩], [], []⟩).1 =
          .error (.nodeLocked none) ∧
        (reserveNodes "t1" ["n1"] ⟨[⟨1, "n1", none⟩], [], []⟩).2 =
          ⟨[⟨1, "n1", none⟩], [], []⟩)) :=
  ⟨by decide, ⟨⟨1, "n1", none⟩, by decide, by decide⟩,
    (reserve_nodes_atomic "t1" ["n1"] ⟨[⟨1, "n1", none⟩], [], []⟩ (by decide)).1
      ⟨⟨1, "n1", none⟩, by decide, by decide⟩⟩

/-- C2 counterexample: the requested name n2 has no row while n1 exists and
is free; reserve_nodes raises Locked, not NotFound. -/
theorem reserve_nodes_partial_missing_locked :
    (reserveNodes "t1" ["n1", "n2"] ⟨[⟨1, "n1", none⟩], [], []⟩).1 =
      .error (.nodeLocked none) ∧
    (reserveNodes "t1" ["n1", "n2"] ⟨[⟨1, "n1", none⟩], [], []⟩).1 ≠
      .error .nodeNotFound :=
  ⟨rfl, by decide⟩

/-- C2 (amended): under the Node.name uniqueness constraint, when some
requested name has no row, reserve_nodes fails with no partial effect: with
NotFound when no requested name has a row, but with Locked when at least one
requested name does have a row. -/
theorem reserve_nodes_missing_name (tag : String) (names : List String)
    (s : DBState) (hu : NamesUnique s)
    (hmiss : ∃ nm ∈ names, ∀ n ∈ s.nodes, n.name ≠ nm) :
    ((∀ n ∈ s.nodes, n.name ∉ names) →
      (reserveNodes tag names s).1 = .error .nodeNotFound ∧
      (reserveNodes tag names s).2 = s) ∧
    ((∃ n ∈ s.nodes, n.name ∈ names) →
      (reserveNodes tag names s).1 = .error (.nodeLocked none) ∧
      (reserveNodes tag names s).2 = s) := by
  obtain ⟨nm, hnm, hnone⟩ := hmiss
  constructor
  · exact reserveNodes_no_named tag names s
  · rintro ⟨n, hn, hname⟩
    have hne := isEmpty_false_of_mem (reserve_selected_mem tag hn hname)
    have hlt := free_count_lt_of_missing names s hu hnm hnone
    rw [reserveNodes_eq]
    simp only [hne, Bool.false_eq_true, if_false]
    simp [Nat.ne_of_lt hlt]

/-- C2 witness: node n1 exists free, n2 is requested but missing; the batch
fails with Locked and the state is unchanged. -/
theorem reserve_nodes_missing_name_witness :
    (∃ nm ∈ ["n1", "n2"],
      ∀ n ∈ (DBState.mk [⟨1, "n1", none⟩] [] []).nodes, n.name ≠ nm) ∧
    ((reserveNodes "t1" ["n1", "n2"] ⟨[⟨1, "n1", none⟩], [], []⟩).1 =
        .error (.nodeLocked none) ∧
      (reserveNodes "t1" ["n1", "n2"] ⟨[⟨1, "n1", none⟩], [], []⟩).2 =
        ⟨[⟨1, "n1", none⟩], [], []⟩) :=
  ⟨⟨"n2", by decide, by decide⟩,
    (reserve_nodes_missing_name "t1" ["n1", "n2"] ⟨[⟨1, "n1", none⟩], [], []⟩
        (by decide) ⟨"n2", by decide, by decide⟩).2
      ⟨⟨1, "n1", none⟩, by decide, by decide⟩⟩

/-- C10: under the Node.name uniqueness constraint, a name list that contains
a duplicate can never make reserve_nodes succeed — the UPDATE row count is
compared against the length of the caller's list — and when every distinct
requested name has a free row it raises Locked and rolls back. -/
theorem reserve_nodes_duplicate_names (tag : String) (names : List String)
    (s : DBState) (hu : NamesUnique s) (hdup : ¬ names.Nodup) :
    (∀ ns, (reserveNodes tag names s).1 ≠ .ok ns) ∧
    ((∀ nm ∈ names, ∃ n ∈ s.nodes, n.name = nm ∧ n.reservation = none) →
      (reserveNodes tag names s).1 = .error (.nodeLocked none) ∧
      (reserveNodes tag names s).2 = s) := by
  have hcne : (s.nodes.filter (freeNamed names)).length ≠ names.length :=
    fun heq => hdup (names_nodup_of_free_count_eq names s hu heq)
  constructor
  · intro ns hok
    rw [reserveNodes_eq] at hok
    by_cases h1 : ((s.nodes.map (acquireRow tag names)).filter (named names)).isEmpty = true
    · simp [h1] at hok
    · simp [h1, hcne] at hok
  · intro hfree
    have hnames_ne : names ≠ [] := fun h => hdup (h ▸ List.nodup_nil)
    obtain ⟨nm, hnm⟩ := List.exists_mem_of_ne_nil names hnames_ne
    obtain ⟨n, hn, hname, _⟩ := hfree nm hnm
    have hmemnames : n.name ∈ names := by rw [hname]; exact hnm
    have hne := isEmpty_false_of_mem (reserve_selected_mem tag hn hmemnames)
    rw [reserveNodes_eq]
    simp only [hne, Bool.false_eq_true, if_false]
    simp [hcne]

/-- C10 witness: requesting `["n1", "n1"]` with n1 existing and free fails
with Locked and leaves the state unchanged. -/
theorem reserve_nodes_duplicate_names_witness :
    ¬ (["n1", "n1"] : List String).Nodup ∧
    ((reserveNodes "t1" ["n1", "n1"] ⟨[⟨1, "n1", none⟩], [], []⟩).1 =
        .error (.nodeLocked none) ∧
      (reserveNodes "t1" ["n1", "n1"] ⟨[⟨1, "n1", none⟩], [], []⟩).2 =
        ⟨[⟨1, "n1", none⟩], [], []⟩) :=
  ⟨by decide,
    (reserve_nodes_duplicate_names "t1" ["n1", "n1"] ⟨[⟨1, "n1", none⟩], [], []⟩
        (by decide) (by decide)).2 (by decide)⟩

/-- C3 (evaluation at the failing input): release_nodes on an existing node
whose reservation is already null returns successfully and commits, instead
of raising NotLocked as the claim — and the method's own docstring —
require. -/
theorem release_nodes_null_silent_success :
    (releaseNodes "t1" ["n1"] ⟨[⟨1, "n1", none⟩], [], []⟩).1 = .ok () ∧
    (releaseNodes "t1" ["n1"] ⟨[⟨1, "n1", none⟩], [], []⟩).2 =
      ⟨[⟨1, "n1", none⟩], [], []⟩ ∧
    (releaseNodes "t1" ["n1"] ⟨[⟨1, "n1", none⟩], [], []⟩).1 ≠
      .error .nodeNotLocked :=
  ⟨rfl, rfl, by decide⟩

/-- Unfolding of release_node into its outcomes: full-count commit, else the
re-read row decides between NotFound, NotLocked and Locked rollbacks. -/
theorem releaseNode_eq (tag : String) (nid : Nat) (s : DBState) :
    releaseNode tag nid s =
      if (s.nodes.filter (idHeld tag nid)).length = 1
      then (.ok (), { s with nodes := s.nodes.map (releaseRowById tag nid) })
      else
        match listOne ((s.nodes.map (releaseRowById tag nid)).filter
            (fun n => decide (n.id = nid))) with
        | .noRow => (.error .nodeNotFound, s)
        | .one node =>
            if node.reservation.isNone then (.error .nodeNotLocked, s)
            else (.error (.nodeLocked node.reservation), s)
        | .several => (.error .multipleResultsFound, s) := by
  unfold releaseNode withWriteSession
  by_cases h1 : (s.nodes.filter (idHeld tag nid)).length = 1
  · simp [h1]
  · simp only [h1, if_false]
    cases hL : listOne ((s.nodes.map (releaseRowById tag nid)).filter
        (fun n => decide (n.id = nid))) with
    | noRow => simp [hL]
    | one node =>
        by_cases h2 : node.reservation.isNone = true
        · simp [hL, h2]
        · simp [hL, h2]
    | several => simp [hL]

/-- Rows the single-node release UPDATE does not match stay as they are. -/
theorem map_releaseRowById_eq_self (tag : String) (nid : Nat) {l : List Node}
    (h : ∀ n ∈ l, idHeld tag nid n = false) :
    l.map (releaseRowById tag nid) = l := by
  have hcong : l.map (releaseRowById tag nid) = l.map id :=
    List.map_congr_left (fun m hm => by simp [releaseRowById, h m hm])
  rw [hcong, List.map_id]

/-- C4: under the Node.id primary-key constraint, release_node(tag, R)
succeeds exactly when R exists and its reservation equals tag (leaving R
with a null reservation and all other rows untouched); when R's reservation
is null it fails with NotLocked, when R is held by a different tag it fails
with Locked reporting that holder, and when R does not exist it fails with
NotFound — and in every failure case the whole state is unchanged. -/
theorem release_node_auth (tag : String) (nid : Nat) (s : DBState)
    (hu : NodeIdsUnique s) :
    (∀ node ∈ s.nodes, node.id = nid →
      (node.reservation = some tag →
        (releaseNode tag nid s).1 = .ok () ∧
        (∀ n ∈ (releaseNode tag nid s).2.nodes, n.id = nid → n.reservation = none) ∧
        (∀ n ∈ (releaseNode tag nid s).2.nodes, n.id ≠ nid → n ∈ s.nodes)) ∧
      (node.reservation = none →
        (releaseNode tag nid s).1 = .error .nodeNotLocked ∧
        (releaseNode tag nid s).2 = s) ∧
      (∀ t', node.reservation = some t' → t' ≠ tag →
        (releaseNode tag nid s).1 = .error (.nodeLocked (some t')) ∧
        (releaseNode tag nid s).2 = s)) ∧
    ((∀ node ∈ s.nodes, node.id ≠ nid) →
      (releaseNode tag nid s).1 = .error .nodeNotFound ∧
      (releaseNode tag nid s).2 = s) := by
  constructor
  · intro node hnode hid
    refine ⟨?_, ?_, ?_⟩
    · intro hres
      have hfil : s.nodes.filter (idHeld tag nid) = [node] := by
        refine filter_eq_singleton_of_key Node.id (idHeld tag nid) hu hnode ?_ ?_
        · unfold idHeld
          simp [hid, hres]
        · intro b _ hb
          unfold idHeld at hb
          simp only [Bool.and_eq_true, decide_eq_true_eq] at hb
          rw [hb.1, hid]
      have h1 : (s.nodes.filter (idHeld tag nid)).length = 1 := by rw [hfil]; rfl
      rw [releaseNode_eq, if_pos h1]
      refine ⟨rfl, ?_, ?_⟩
      · intro n hn hnid
        rcases List.mem_map.mp hn with ⟨m, hm, rfl⟩
        rw [releaseRowById_id] at hnid
        have hmn : m = node := List.inj_on_of_nodup_map hu hm hnode (by rw [hnid, hid])
        subst hmn
        unfold releaseRowById
        rw [if_pos (by unfold idHeld; simp [hid, hres])]
      · intro n hn hnid
        rcases List.mem_map.mp hn with ⟨m, hm, rfl⟩
        rw [releaseRowById_id] at hnid
        have hfalse : idHeld tag nid m = false := by
          unfold idHeld
          simp [hnid]
        unfold releaseRowById
        rw [if_neg (by simp [hfalse])]
        exact hm
    · intro hres
      have hfil0 : s.nodes.filter (idHeld tag nid) = [] := by
        refine List.filter_eq_nil_iff.mpr (fun b hb hheld => ?_)
        unfold idHeld at hheld
        simp only [Bool.and_eq_true, decide_eq_true_eq] at hheld
        have hbn : b = node := List.inj_on_of_nodup_map hu hb hnode (by rw [hheld.1, hid])
        rw [hbn, hres] at hheld
        exact Option.noConfusion hheld.2
      have hmapid : s.nodes.map (releaseRowById tag nid) = s.nodes :=
        map_releaseRowById_eq_self tag nid (fun m hm => by
          by_cases hmid : m.id = nid
          · have hmn : m = node := List.inj_on_of_nodup_map hu hm hnode (by rw [hmid, hid])
            subst hmn
            unfold idHeld
            simp [hres]
          · unfold idHeld
            simp [hmid])
      have hfil1 : s.nodes.filter (fun n => decide (n.id = nid)) = [node] := by
        refine filter_eq_singleton_of_key Node.id _ hu hnode (by simp [hid]) ?_
        intro b _ hb
        rw [of_decide_eq_true hb, hid]
      rw [releaseNode_eq, if_neg (by rw [hfil0]; simp), hmapid, hfil1]
      simp [listOne, hres]
    · intro t' hres hne
      have hfil0 : s.nodes.filter (idHeld tag nid) = [] := by
        refine List.filter_eq_nil_iff.mpr (fun b hb hheld => ?_)
        unfold idHeld at hheld
        simp only [Bool.and_eq_true, decide_eq_true_eq] at hheld
        have hbn : b = node := List.inj_on_of_nodup_map hu hb hnode (by rw [hheld.1, hid])
        rw [hbn, hres] at hheld
        exact hne (Option.some.inj hheld.2)
      have hmapid : s.nodes.map (releaseRowById tag nid) = s.nodes :=
        map_releaseRowById_eq_self tag nid (fun m hm => by
          by_cases hmid : m.id = nid
          · have hmn : m = node := List.inj_on_of_nodup_map hu hm hnode (by rw [hmid, hid])
            subst hmn
            unfold idHeld
            simp [hres, hne]
          · unfold idHeld
            simp [hmid])
      have hfil1 : s.nodes.filter (fun n => decide (n.id = nid)) = [node] := by
        refine filter_eq_singleton_of_key Node.id _ hu hnode (by simp [hid]) ?_
        intro b _ hb
        rw [of_decide_eq_true hb, hid]
      rw [releaseNode_eq, if_neg (by rw [hfil0]; simp), hmapid, hfil1]
      simp [listOne, hres]
  · intro hnone
    have hfil0 : s.nodes.filter (idHeld tag nid) = [] := by
      refine List.filter_eq_nil_iff.mpr (fun b hb hheld => ?_)
      unfold idHeld at hheld
      simp only [Bool.and_eq_true, decide_eq_true_eq] at hheld
      exact hnone b hb hheld.1
    have hmapid : s.nodes.map (releaseRowById tag nid) = s.nodes :=
      map_releaseRowById_eq_self tag nid (fun m hm => by
        unfold idHeld
        simp [hnone m hm])
    have hfil1 : s.nodes.filter (fun n => decide (n.id = nid)) = [] := by
      refine List.filter_eq_nil_iff.mpr (fun b hb hb2 => ?_)
      exact hnone b hb (of_decide_eq_true hb2)
    rw [releaseNode_eq, if_neg (by rw [hfil0]; simp), hmapid, hfil1]
    simp [listOne]

/-- C4 witness: node 1 held by t1 is released; the result commits with the
reservation nulled. -/
theorem release_node_auth_witness :
    NodeIdsUnique ⟨[⟨1, "n1", some "t1"⟩], [], []⟩ ∧
    ((releaseNode "t1" 1 ⟨[⟨1, "n1", some "t1"⟩], [], []⟩).1 = .ok () ∧
      (∀ n ∈ (releaseNode "t1" 1 ⟨[⟨1, "n1", some "t1"⟩], [], []⟩).2.nodes,
        n.id = 1 → n.reservation = none) ∧
      (∀ n ∈ (releaseNode "t1" 1 ⟨[⟨1, "n1", some "t1"⟩], [], []⟩).2.nodes,
        n.id ≠ 1 → n ∈ (DBState.mk [⟨1, "n1", some "t1"⟩] [] []).nodes)) :=
  ⟨by decide,
    ((release_node_auth "t1" 1 ⟨[⟨1, "n1", some "t1"⟩], [], []⟩ (by decide)).1
        ⟨1, "n1", some "t1"⟩ (by decide) rfl).1 rfl⟩

/-- C5 counterexample: a conductor stored with online=false but a fresh
heartbeat timestamp is returned by get_conductors. -/
theorem get_conductors_includes_offline :
    getConductors 100 10 ⟨[], [], [⟨"h1", false, 100⟩]⟩ = [⟨"h1", false, 100⟩] ∧
    (⟨"h1", false, 100⟩ : Conductor).online = false := by
  constructor
  · decide
  · rfl

/-- C5 (amended): get_conductors returns exactly the workers whose
last_heartbeat is strictly newer than now minus heartbeat_timeout,
regardless of the stored online flag — a stale worker is absent whatever its
flag, and an offline worker with a recent heartbeat is present. -/
theorem get_conductors_freshness (now interval : Int) (s : DBState)
    (c : Conductor) :
    c ∈ getConductors now interval s ↔
      c ∈ s.conductors ∧ now - interval < c.updated_at := by
  unfold getConductors
  rw [List.mem_filter]
  simp

/-- C5 witness: the freshness criterion evaluated at a concrete offline but
fresh conductor. -/
theorem get_conductors_freshness_witness :
    (⟨"h1", false, 100⟩ : Conductor) ∈
        getConductors 100 10 ⟨[], [], [⟨"h1", false, 100⟩]⟩ ↔
      ((⟨"h1", false, 100⟩ : Conductor) ∈
          (DBState.mk [] [] [⟨"h1", false, 100⟩]).conductors ∧
        (100 : Int) - 10 < 100) :=
  get_conductors_freshness 100 10 ⟨[], [], [⟨"h1", false, 100⟩]⟩ ⟨"h1", false, 100⟩

/-- Unfolding of touch_conductor into its two outcomes. -/
theorem touchConductor_eq (hostname : String) (now : Int) (s : DBState) :
    touchConductor hostname now s =
      if (s.conductors.filter (fun c => decide (c.hostname = hostname))).length = 0
      then (.error .conductorNotFound, s)
      else (.ok (), { s with conductors := s.conductors.map (touchRow hostname now) }) := by
  unfold touchConductor withWriteSession
  by_cases h : (s.conductors.filter (fun c => decide (c.hostname = hostname))).length = 0
  · simp [h]
  · simp [h]

/-- C7: heartbeat is idempotent and reviving — for a hostname with a record,
touch_conductor always succeeds (whether the record was online or offline)
and sets online=true and updated_at=now on that record; for an unknown
hostname it fails with NotFound and changes nothing. -/
theorem touch_conductor_heartbeat (hostname : String) (now : Int) (s : DBState) :
    ((∃ c ∈ s.conductors, c.hostname = hostname) →
      (touchConductor hostname now s).1 = .ok () ∧
      ∀ c ∈ (touchConductor hostname now s).2.conductors,
        c.hostname = hostname → c.online = true ∧ c.updated_at = now) ∧
    ((∀ c ∈ s.conductors, c.hostname ≠ hostname) →
      (touchConductor hostname now s).1 = .error .conductorNotFound ∧
      (touchConductor hostname now s).2 = s) := by
  constructor
  · rintro ⟨c, hc, hcn⟩
    have hmem : c ∈ s.conductors.filter (fun c => decide (c.hostname = hostname)) :=
      List.mem_filter.mpr ⟨hc, by simp [hcn]⟩
    have hne : ¬ (s.conductors.filter
        (fun c => decide (c.hostname = hostname))).length = 0 := by
      intro h0
      rw [List.length_eq_zero] at h0
      rw [h0] at hmem
      exact absurd hmem (List.not_mem_nil c)
    rw [touchConductor_eq, if_neg hne]
    refine ⟨rfl, ?_⟩
    intro d hd hdn
    rcases List.mem_map.mp hd with ⟨m, hm, rfl⟩
    rw [touchRow_hostname] at hdn
    unfold touchRow
    rw [if_pos (by simp [hdn])]
    exact ⟨rfl, rfl⟩
  · intro hnone
    have hfil : s.conductors.filter (fun c => decide (c.hostname = hostname)) = [] :=
      List.filter_eq_nil_iff.mpr (fun c hc hdec =>
        hnone c hc (of_decide_eq_true hdec))
    rw [touchConductor_eq, if_pos (by rw [hfil]; rfl)]
    exact ⟨rfl, rfl⟩

/-- C7 witness: heartbeating the offline worker h1 succeeds and revives it. -/
theorem touch_conductor_heartbeat_witness :
    (∃ c ∈ (DBState.mk [] [] [⟨"h1", false, 0⟩]).conductors, c.hostname = "h1") ∧
    ((touchConductor "h1" 100 ⟨[], [], [⟨"h1", false, 0⟩]⟩).1 = .ok () ∧
      ∀ c ∈ (touchConductor "h1" 100 ⟨[], [], [⟨"h1", false, 0⟩]⟩).2.conductors,
        c.hostname = "h1" → c.online = true ∧ c.updated_at = 100) :=
  ⟨⟨⟨"h1", false, 0⟩, by decide, rfl⟩,
    (touch_conductor_heartbeat "h1" 100 ⟨[], [], [⟨"h1", false, 0⟩]⟩).1
      ⟨⟨"h1", false, 0⟩, by decide, rfl⟩⟩

/-- Unfolding of register_conductor into its three outcomes. -/
theorem registerConductor_eq (hostname : String) (now : Int) (ow : Bool)
    (s : DBState) :
    registerConductor hostname now ow s =
      match listOne (s.conductors.filter (fun c => decide (c.hostname = hostname))) with
      | .several => (.error .multipleResultsFound, s)
      | .one ref =>
          if ref.online && !ow then (.error .conductorAlreadyRegistered, s)
          else (.ok { ref with online := true, updated_at := now },
                { s with conductors := s.conductors.map (fun c =>
                  if decide (c.hostname = hostname)
                  then { ref with online := true, updated_at := now } else c) })
      | .noRow =>
          (.ok ⟨hostname, true, now⟩,
            { s with conductors := s.conductors ++ [⟨hostname, true, now⟩] }) := by
  unfold registerConductor withWriteSession
  cases hL : listOne (s.conductors.filter (fun c => decide (c.hostname = hostname))) with
  | noRow => simp [hL]
  | one ref =>
      by_cases h2 : ref.online = true ∧ ow = false
      · simp [hL, h2]
      · simp [hL, h2]
  | several => simp [hL]

/-- C8: under the hostname uniqueness constraint, register_conductor fails
with AlreadyRegistered exactly when a record for the hostname exists with
online=true and overwriting was not requested (leaving the state unchanged);
in every other case — no record, offline record, or overwrite allowed — it
returns a record for that hostname with online=true and updated_at=now that
is stored in the resulting state, so re-registering an offline worker always
revives it. -/
theorem register_conductor_guard (hostname : String) (now : Int) (ow : Bool)
    (s : DBState) (hu : HostsUnique s) :
    (((∃ c ∈ s.conductors, c.hostname = hostname ∧ c.online = true) ∧ ow = false) →
      (registerConductor hostname now ow s).1 = .error .conductorAlreadyRegistered ∧
      (registerConductor hostname now ow s).2 = s) ∧
    (¬ ((∃ c ∈ s.conductors, c.hostname = hostname ∧ c.online = true) ∧ ow = false) →
      ∃ c, (registerConductor hostname now ow s).1 = .ok c ∧
        c.hostname = hostname ∧ c.online = true ∧ c.updated_at = now ∧
        c ∈ (registerConductor hostname now ow s).2.conductors) := by
  constructor
  · rintro ⟨⟨c, hc, hcn, hon⟩, how⟩
    have hfil : s.conductors.filter (fun d => decide (d.hostname = hostname)) = [c] := by
      refine filter_eq_singleton_of_key Conductor.hostname _ hu hc (by simp [hcn]) ?_
      intro b _ hb
      rw [of_decide_eq_true hb, hcn]
    rw [registerConductor_eq, hfil]
    simp [listOne, hon, how]
  · intro hn
    have hle : (s.conductors.filter (fun d => decide (d.hostname = hostname))).length ≤ 1 :=
      length_filter_le_one_of_key Conductor.hostname _ hu
        (fun b _ hb => of_decide_eq_true hb)
    rcases eq_nil_or_singleton_of_length_le_one hle with hfil | ⟨ref, hfil⟩
    · rw [registerConductor_eq, hfil]
      refine ⟨⟨hostname, true, now⟩, rfl, rfl, rfl, rfl, ?_⟩
      simp [listOne]
    · have hrefmem := List.mem_filter.mp (hfil ▸ List.mem_singleton_self ref)
      have hrefhost : ref.hostname = hostname := of_decide_eq_true hrefmem.2
      have hguard : (ref.online && !ow) = false := by
        cases hono : ref.online
        · rfl
        · cases hoow : ow
          · exact absurd ⟨⟨ref, hrefmem.1, hrefhost, hono⟩, hoow⟩ hn
          · rfl
      rw [registerConductor_eq, hfil]
      simp only [listOne, hguard, Bool.false_eq_true, if_false]
      refine ⟨{ ref with online := true, updated_at := now }, rfl, hrefhost, rfl, rfl, ?_⟩
      refine List.mem_map.mpr ⟨ref, hrefmem.1, ?_⟩
      simp [hrefhost]

/-- C8 witness: re-registering the offline worker h1 with overwrite not
allowed succeeds and revives it. -/
theorem register_conductor_guard_witness :
    ¬ ((∃ c ∈ (DBState.mk [] [] [⟨"h1", false, 0⟩]).conductors,
          c.hostname = "h1" ∧ c.online = true) ∧ false = false) ∧
    (∃ c, (registerConductor "h1" 100 false ⟨[], [], [⟨"h1", false, 0⟩]⟩).1 = .ok c ∧
      c.hostname = "h1" ∧ c.online = true ∧ c.updated_at = 100 ∧
      c ∈ (registerConductor "h1" 100 false ⟨[], [], [⟨"h1", false, 0⟩]⟩).2.conductors) :=
  ⟨by decide,
    (register_conductor_guard "h1" 100 false ⟨[], [], [⟨"h1", false, 0⟩]⟩
        (by decide)).2 (by decide)⟩

/-- Unfolding of destroy_node into its outcomes. -/
theorem destroyNode_eq (nm : String) (s : DBState) :
    destroyNode nm s =
      match listOne (s.nodes.filter (fun n => decide (n.name = nm))) with
      | .noRow => (.error .nodeNotFound, s)
      | .several => (.error .multipleResultsFound, s)
      | .one node =>
          (.ok (), { s with
            nics := s.nics.filter (fun nic => !decide (nic.node_id = node.id)),
            nodes := s.nodes.filter (fun n => !decide (n.name = nm)) }) := by
  unfold destroyNode withWriteSession
  cases hL : listOne (s.nodes.filter (fun n => decide (n.name = nm))) with
  | noRow => simp [hL]
  | one node => simp [hL]
  | several => simp [hL]

/-- C9: under the Node.name and Nics.id uniqueness constraints, destroying an
existing node succeeds and deletes, in the same transaction, every nic owned
by it, so that a subsequent get_nic_by_id of any such nic fails with
NotFound; destroying a missing node fails with NotFound and deletes
nothing. -/
theorem destroy_node_cascade (nm : String) (s : DBState)
    (hn : NamesUnique s) (hnic : NicIdsUnique s) :
    (∀ node ∈ s.nodes, node.name = nm →
      (destroyNode nm s).1 = .ok () ∧
      (∀ nic ∈ (destroyNode nm s).2.nics, nic.node_id ≠ node.id) ∧
      (∀ nic ∈ s.nics, nic.node_id = node.id →
        getNicById nic.id (destroyNode nm s).2 = .error .nicNotFound)) ∧
    ((∀ node ∈ s.nodes, node.name ≠ nm) →
      (destroyNode nm s).1 = .error .nodeNotFound ∧
      (destroyNode nm s).2 = s) := by
  constructor
  · intro node hnode hname
    have hfil : s.nodes.filter (fun n => decide (n.name = nm)) = [node] := by
      refine filter_eq_singleton_of_key Node.name _ hn hnode (by simp [hname]) ?_
      intro b _ hb
      rw [of_decide_eq_true hb, hname]
    rw [destroyNode_eq, hfil]
    simp only [listOne]
    refine ⟨trivial, ?_, ?_⟩
    · intro nic hnicmem
      have h2 := (List.mem_filter.mp hnicmem).2
      simp only [Bool.not_eq_true', decide_eq_false_iff_not] at h2
      exact h2
    · intro nic hnicmem hown
      have hfilnic : ((s.nics.filter (fun c => !decide (c.node_id = node.id))).filter
          (fun c => decide (c.id = nic.id))) = [] := by
        refine List.filter_eq_nil_iff.mpr (fun b hb hbid => ?_)
        have hbmem := List.mem_filter.mp hb
        have hbn : b = nic :=
          List.inj_on_of_nodup_map hnic hbmem.1 hnicmem (of_decide_eq_true hbid)
        rw [hbn] at hbmem
        simp only [Bool.not_eq_true', decide_eq_false_iff_not] at hbmem
        exact hbmem.2 hown
      unfold getNicById
      rw [show ({ s with
          nics := s.nics.filter (fun c => !decide (c.node_id = node.id)),
          nodes := s.nodes.filter (fun n => !decide (n.name = nm)) } : DBState).nics =
        s.nics.filter (fun c => !decide (c.node_id = node.id)) from rfl, hfilnic]
      rfl
  · intro hnone
    have hfil : s.nodes.filter (fun n => decide (n.name = nm)) = [] :=
      List.filter_eq_nil_iff.mpr (fun b hb hdec => hnone b hb (of_decide_eq_true hdec))
    rw [destroyNode_eq, hfil]
    exact ⟨rfl, rfl⟩

/-- C9 witness: destroying node n1 with two nics, one owned by it, removes
the owned nic and its lookup then fails with NotFound. -/
theorem destroy_node_cascade_witness :
    NamesUnique ⟨[⟨1, "n1", none⟩], [⟨7, 1, "aa"⟩], []⟩ ∧
    ((destroyNode "n1" ⟨[⟨1, "n1", none⟩], [⟨7, 1, "aa"⟩], []⟩).1 = .ok () ∧
      (∀ nic ∈ (destroyNode "n1" ⟨[⟨1, "n1", none⟩], [⟨7, 1, "aa"⟩], []⟩).2.nics,
        nic.node_id ≠ 1) ∧
      (∀ nic ∈ (DBState.mk [⟨1, "n1", none⟩] [⟨7, 1, "aa"⟩] []).nics,
        nic.node_id = 1 →
          getNicById nic.id (destroyNode "n1" ⟨[⟨1, "n1", none⟩], [⟨7, 1, "aa"⟩], []⟩).2 =
            .error .nicNotFound)) :=
  ⟨by decide,
    (destroy_node_cascade "n1" ⟨[⟨1, "n1", none⟩], [⟨7, 1, "aa"⟩], []⟩
        (by decide) (by decide)).1 ⟨1, "n1", none⟩ (by decide) rfl⟩

/-- Unfolding of release_nodes into its outcomes. -/
theorem releaseNodes_eq (tag : String) (names : List String) (s : DBState) :
    releaseNodes tag names s =
      if (s.nodes.filter (heldNamed tag names)).length = names.length
      then (.ok (), { s with nodes := s.nodes.map (releaseRow tag names) })
      else if ((s.nodes.map (releaseRow tag names)).filter (named names)).isEmpty = true
      then (.error .nodeNotFound, s)
      else
        match ((s.nodes.map (releaseRow tag names)).filter (named names)).find?
            (fun n => pyTruthy n.reservation) with
        | some node => (.error (.nodeLocked node.reservation), s)
        | none => (.ok (), { s with nodes := s.nodes.map (releaseRow tag names) }) := by
  unfold releaseNodes withWriteSession
  by_cases h1 : (s.nodes.filter (heldNamed tag names)).length = names.length
  · simp [h1]
  · by_cases h2 : ((s.nodes.map (releaseRow tag names)).filter (named names)).isEmpty = true
    · simp [h1, h2]
    · cases hF : ((s.nodes.map (releaseRow tag names)).filter (named names)).find?
          (fun n => pyTruthy n.reservation) with
      | none => simp [h1, h2, hF]
      | some node => simp [h1, h2, hF]

/-- Unfolding of reserve_node into its outcomes. -/
theorem reserveNode_eq (tag : String) (nid : Nat) (s : DBState) :
    reserveNode tag nid s =
      match listOne ((s.nodes.map (acquireRowById tag nid)).filter
          (fun n => decide (n.id = nid))) with
      | .noRow => (.error .nodeNotFound, s)
      | .several => (.error .multipleResultsFound, s)
      | .one node =>
          if (s.nodes.filter (idFree nid)).length = 1
          then (.ok node, { s with nodes := s.nodes.map (acquireRowById tag nid) })
          else (.error (.nodeLocked node.reservation), s) := by
  unfold reserveNode withWriteSession
  cases hL : listOne ((s.nodes.map (acquireRowById tag nid)).filter
      (fun n => decide (n.id = nid))) with
  | noRow => simp [hL]
  | several => simp [hL]
  | one node =>
      by_cases h2 : (s.nodes.filter (idFree nid)).length = 1
      · simp [hL, h2]
      · simp [hL, h2]

/-- Unfolding of unregister_conductor into its two outcomes. -/
theorem unregisterConductor_eq (hostname : String) (s : DBState) :
    unregisterConductor hostname s =
      if (s.conductors.filter
          (fun c => decide (c.hostname = hostname) && c.online)).length = 0
      then (.error .conductorNotFound, s)
      else (.ok (), { s with conductors := s.conductors.map (fun c =>
        if decide (c.hostname = hostname) && c.online
        then { c with online := false } else c) }) := by
  unfold unregisterConductor withWriteSession
  by_cases h : (s.conductors.filter
      (fun c => decide (c.hostname = hostname) && c.online)).length = 0
  · simp [h]
  · simp [h]

/-- Unfolding of update_node into its outcomes. -/
theorem updateNode_eq (nid : Nat) (v : Option String) (s : DBState) :
    updateNode nid v s =
      match listOne (s.nodes.filter (fun n => decide (n.id = nid))) with
      | .noRow => (.error .nodeNotFound, s)
      | .several => (.error .multipleResultsFound, s)
      | .one node =>
          if s.nodes.any (fun m =>
              decide (m.id ≠ node.id) && decide (m.name = v.getD node.name)) = true
          then (.error .duplicateName, s)
          else (.ok { node with name := v.getD node.name },
            { s with nodes := s.nodes.map (fun m =>
              if decide (m.id = nid)
              then { node with name := v.getD node.name } else m) }) := by
  unfold updateNode withWriteSession
  cases hL : listOne (s.nodes.filter (fun n => decide (n.id = nid))) with
  | noRow => simp [hL]
  | several => simp [hL]
  | one node =>
      by_cases h2 : ∃ m ∈ s.nodes, ¬ m.id = node.id ∧ m.name = v.getD node.name
      · simp [hL, h2]
      · simp [hL, h2]

/-- Unfolding of create_node into its outcomes. -/
theorem createNode_eq (name : String) (macs : List String) (nodeId : Nat)
    (s : DBState) :
    createNode name macs nodeId s =
      if s.nodes.any (fun n => decide (n.name = name)) = true
      then (.error .duplicateName, s)
      else
        match insertNics nodeId s.nics s.nics.length macs with
        | .error e => (.error e, s)
        | .ok nics' => (.ok ⟨nodeId, name, none⟩,
            { s with nodes := s.nodes ++ [⟨nodeId, name, none⟩], nics := nics' }) := by
  unfold createNode withWriteSession
  by_cases h1 : s.nodes.any (fun n => decide (n.name = name)) = true
  · simp [h1]
  · cases hI : insertNics nodeId s.nics s.nics.length macs with
    | error e => simp [h1, hI]
    | ok nics' => simp [h1, hI]

/-- The only error the nic insertion loop raises is the raw mac
duplicate-key error. -/
theorem insertNics_error (nodeId : Nat) (macs : List String) :
    ∀ ex nextId e, insertNics nodeId ex nextId macs = .error e →
      e = .dbDuplicateEntry ["mac"] := by
  induction macs with
  | nil => exact fun ex nextId e h => Except.noConfusion h
  | cons mac rest ih =>
      intro ex nextId e h
      unfold insertNics at h
      by_cases hc : ex.any (fun nic => decide (nic.mac = mac)) = true
      · rw [if_pos hc] at h
        exact (Except.error.inj h).symm
      · rw [if_neg hc] at h
        exact ih _ _ e h

/-- reserve_nodes surfaces only domain errors. -/
theorem reserveNodes_no_storage (tag : String) (names : List String) (s : DBState)
    (e : XErr) (h : (reserveNodes tag names s).1 = .error e) :
    XErr.isStorage e = false := by
  rw [reserveNodes_eq] at h
  by_cases h1 : ((s.nodes.map (acquireRow tag names)).filter (named names)).isEmpty = true
  · rw [if_pos h1] at h
    cases Except.error.inj h
    rfl
  · rw [if_neg h1] at h
    by_cases h2 : (s.nodes.filter (freeNamed names)).length = names.length
    · rw [if_pos h2] at h
      exact Except.noConfusion h
    · rw [if_neg h2] at h
      cases Except.error.inj h
      rfl

/-- release_nodes surfaces only domain errors. -/
theorem releaseNodes_no_storage (tag : String) (names : List String) (s : DBState)
    (e : XErr) (h : (releaseNodes tag names s).1 = .error e) :
    XErr.isStorage e = false := by
  rw [releaseNodes_eq] at h
  by_cases h1 : (s.nodes.filter (heldNamed tag names)).length = names.length
  · rw [if_pos h1] at h
    exact Except.noConfusion h
  · rw [if_neg h1] at h
    by_cases h2 : ((s.nodes.map (releaseRow tag names)).filter (named names)).isEmpty = true
    · rw [if_pos h2] at h
      cases Except.error.inj h
      rfl
    · rw [if_neg h2] at h
      cases hF : ((s.nodes.map (releaseRow tag names)).filter (named names)).find?
          (fun n => pyTruthy n.reservation) with
      | some node =>
          rw [hF] at h
          cases Except.error.inj h
          rfl
      | none =>
          rw [hF] at h
          exact Except.noConfusion h

/-- reserve_node surfaces only domain errors (the id column is a key). -/
theorem reserveNode_no_storage (tag : String) (nid : Nat) (s : DBState)
    (hu : NodeIdsUnique s) (e : XErr) (h : (reserveNode tag nid s).1 = .error e) :
    XErr.isStorage e = false := by
  rw [reserveNode_eq] at h
  have hnd : ((s.nodes.map (acquireRowById tag nid)).map Node.id).Nodup := by
    rw [map_id_acquireById]
    exact hu
  have hle := length_filter_le_one_of_key Node.id
      (fun n => decide (n.id = nid)) hnd (fun b _ hb => of_decide_eq_true hb)
  rcases eq_nil_or_singleton_of_length_le_one hle with hfil | ⟨a, hfil⟩
  · rw [hfil] at h
    simp only [listOne] at h
    cases Except.error.inj h
    rfl
  · rw [hfil] at h
    simp only [listOne] at h
    by_cases h2 : (s.nodes.filter (idFree nid)).length = 1
    · rw [if_pos h2] at h
      exact Except.noConfusion h
    · rw [if_neg h2] at h
      cases Except.error.inj h
      rfl

/-- release_node surfaces only domain errors (the id column is a key). -/
theorem releaseNode_no_storage (tag : String) (nid : Nat) (s : DBState)
    (hu : NodeIdsUnique s) (e : XErr) (h : (releaseNode tag nid s).1 = .error e) :
    XErr.isStorage e = false := by
  rw [releaseNode_eq] at h
  by_cases h1 : (s.nodes.filter (idHeld tag nid)).length = 1
  · rw [if_pos h1] at h
    exact Except.noConfusion h
  · rw [if_neg h1] at h
    have hnd : ((s.nodes.map (releaseRowById tag nid)).map Node.id).Nodup := by
      rw [map_id_releaseById]
      exact hu
    have hle := length_filter_le_one_of_key Node.id
        (fun n => decide (n.id = nid)) hnd (fun b _ hb => of_decide_eq_true hb)
    rcases eq_nil_or_singleton_of_length_le_one hle with hfil | ⟨a, hfil⟩
    · rw [hfil] at h
      simp only [listOne] at h
      cases Except.error.inj h
      rfl
    · rw [hfil] at h
      simp only [listOne] at h
      by_cases h2 : a.reservation.isNone = true
      · rw [if_pos h2] at h
        cases Except.error.inj h
        rfl
      · rw [if_neg h2] at h
        cases Except.error.inj h
        rfl

/-- register_conductor surfaces only domain errors (hostname is unique). -/
theorem registerConductor_no_storage (hostname : String) (now : Int) (ow : Bool)
    (s : DBState) (hu : HostsUnique s) (e : XErr)
    (h : (registerConductor hostname now ow s).1 = .error e) :
    XErr.isStorage e = false := by
  rw [registerConductor_eq] at h
  have hle := length_filter_le_one_of_key Conductor.hostname
      (fun c => decide (c.hostname = hostname)) hu (fun b _ hb => of_decide_eq_true hb)
  rcases eq_nil_or_singleton_of_length_le_one hle with hfil | ⟨ref, hfil⟩
  · rw [hfil] at h
    simp only [listOne] at h
    exact Except.noConfusion h
  · rw [hfil] at h
    simp only [listOne] at h
    by_cases h2 : (ref.online && !ow) = true
    · rw [if_pos h2] at h
      cases Except.error.inj h
      rfl
    · rw [if_neg h2] at h
      exact Except.noConfusion h

/-- touch_conductor surfaces only domain errors. -/
theorem touchConductor_no_storage (hostname : String) (now : Int) (s : DBState)
    (e : XErr) (h : (touchConductor hostname now s).1 = .error e) :
    XErr.isStorage e = false := by
  rw [touchConductor_eq] at h
  by_cases h1 : (s.conductors.filter (fun c => decide (c.hostname = hostname))).length = 0
  · rw [if_pos h1] at h
    cases Except.error.inj h
    rfl
  · rw [if_neg h1] at h
    exact Except.noConfusion h

/-- unregister_conductor surfaces only domain errors. -/
theorem unregisterConductor_no_storage (hostname : String) (s : DBState)
    (e : XErr) (h : (unregisterConductor hostname s).1 = .error e) :
    XErr.isStorage e = false := by
  rw [unregisterConductor_eq] at h
  by_cases h1 : (s.conductors.filter
      (fun c => decide (c.hostname = hostname) && c.online)).length = 0
  · rw [if_pos h1] at h
    cases Except.error.inj h
    rfl
  · rw [if_neg h1] at h
    exact Except.noConfusion h

/-- get_conductor surfaces only domain errors (hostname is unique). -/
theorem getConductor_no_storage (hostname : String) (s : DBState)
    (hu : HostsUnique s) (e : XErr) (h : getConductor hostname s = .error e) :
    XErr.isStorage e = false := by
  unfold getConductor at h
  have hkey : ∀ b ∈ s.conductors,
      (decide (b.hostname = hostname) && b.online) = true → b.hostname = hostname := by
    intro b _ hb
    simp only [Bool.and_eq_true, decide_eq_true_eq] at hb
    exact hb.1
  have hle := length_filter_le_one_of_key Conductor.hostname
      (fun c => decide (c.hostname = hostname) && c.online) hu hkey
  rcases eq_nil_or_singleton_of_length_le_one hle with hfil | ⟨c, hfil⟩
  · rw [hfil] at h
    simp only [listOne] at h
    cases Except.error.inj h
    rfl
  · rw [hfil] at h
    simp only [listOne] at h
    exact Except.noConfusion h

/-- update_node surfaces only domain errors (the id column is a key). -/
theorem updateNode_no_storage (nid : Nat) (v : Option String) (s : DBState)
    (hu : NodeIdsUnique s) (e : XErr) (h : (updateNode nid v s).1 = .error e) :
    XErr.isStorage e = false := by
  rw [updateNode_eq] at h
  have hle := length_filter_le_one_of_key Node.id
      (fun n => decide (n.id = nid)) hu (fun b _ hb => of_decide_eq_true hb)
  rcases eq_nil_or_singleton_of_length_le_one hle with hfil | ⟨node, hfil⟩
  · rw [hfil] at h
    simp only [listOne] at h
    cases Except.error.inj h
    rfl
  · rw [hfil] at h
    simp only [listOne] at h
    by_cases h2 : s.nodes.any (fun m =>
        decide (m.id ≠ node.id) && decide (m.name = v.getD node.name)) = true
    · rw [if_pos h2] at h
      cases Except.error.inj h
      rfl
    · rw [if_neg h2] at h
      exact Except.noConfusion h

/-- create_node surfaces domain errors except for the re-raised raw mac
duplicate-key error. -/
theorem createNode_errors (name : String) (macs : List String) (nodeId : Nat)
    (s : DBState) (e : XErr) (h : (createNode name macs nodeId s).1 = .error e) :
    XErr.isStorage e = false ∨ e = .dbDuplicateEntry ["mac"] := by
  rw [createNode_eq] at h
  by_cases h1 : s.nodes.any (fun n => decide (n.name = name)) = true
  · rw [if_pos h1] at h
    cases Except.error.inj h
    exact Or.inl rfl
  · rw [if_neg h1] at h
    cases hI : insertNics nodeId s.nics s.nics.length macs with
    | error e2 =>
        rw [hI] at h
        cases Except.error.inj h
        exact Or.inr (insertNics_error nodeId macs _ _ _ hI)
    | ok nics' =>
        rw [hI] at h
        exact Except.noConfusion h

/-- C6 counterexample: creating a node with a nic whose hardware address is
already stored re-raises the raw storage-layer DBDuplicateEntry error to the
caller. -/
theorem create_node_mac_leak :
    (createNode "n2" ["aa:bb"] 2 ⟨[⟨1, "n1", none⟩], [⟨0, 1, "aa:bb"⟩], []⟩).1 =
      .error (.dbDuplicateEntry ["mac"]) ∧
    XErr.isStorage (.dbDuplicateEntry ["mac"]) = true :=
  ⟨rfl, rfl⟩

/-- C6 (amended): every error surfaced by the create, update, reservation and
liveness operations is a translated xcat3 domain error — with the single
exception that create_node re-raises the raw storage duplicate-key error
when the colliding column is the nic hardware address.  The uniqueness
hypotheses state the primary-key and unique-column constraints of the model
layer. -/
theorem storage_errors_translated :
    (∀ tag names s e, (reserveNodes tag names s).1 = .error e →
        XErr.isStorage e = false) ∧
    (∀ tag names s e, (releaseNodes tag names s).1 = .error e →
        XErr.isStorage e = false) ∧
    (∀ tag nid s e, NodeIdsUnique s → (reserveNode tag nid s).1 = .error e →
        XErr.isStorage e = false) ∧
    (∀ tag nid s e, NodeIdsUnique s → (releaseNode tag nid s).1 = .error e →
        XErr.isStorage e = false) ∧
    (∀ hst now ow s e, HostsUnique s →
        (registerConductor hst now ow s).1 = .error e → XErr.isStorage e = false) ∧
    (∀ hst now s e, (touchConductor hst now s).1 = .error e →
        XErr.isStorage e = false) ∧
    (∀ hst s e, (unregisterConductor hst s).1 = .error e →
        XErr.isStorage e = false) ∧
    (∀ hst s e, HostsUnique s → getConductor hst s = .error e →
        XErr.isStorage e = false) ∧
    (∀ nid v s e, NodeIdsUnique s → (updateNode nid v s).1 = .error e →
        XErr.isStorage e = false) ∧
    (∀ name macs nodeId s e, (createNode name macs nodeId s).1 = .error e →
        XErr.isStorage e = false ∨ e = .dbDuplicateEntry ["mac"]) :=
  ⟨reserveNodes_no_storage, releaseNodes_no_storage,
    fun tag nid s e hu h => reserveNode_no_storage tag nid s hu e h,
    fun tag nid s e hu h => releaseNode_no_storage tag nid s hu e h,
    fun hst now ow s e hu h => registerConductor_no_storage hst now ow s hu e h,
    touchConductor_no_storage, unregisterConductor_no_storage,
    fun hst s e hu h => getConductor_no_storage hst s hu e h,
    fun nid v s e hu h => updateNode_no_storage nid v s hu e h,
    createNode_errors⟩

/-- C6 witness: the NotFound error of a batch acquire on an empty table is a
domain error, not a storage error. -/
theorem storage_errors_translated_witness :
    (reserveNodes "t0" ["x"] ⟨[], [], []⟩).1 = .error .nodeNotFound ∧
    XErr.isStorage .nodeNotFound = false :=
  ⟨rfl, storage_errors_translated.1 "t0" ["x"] ⟨[], [], []⟩ .nodeNotFound rfl⟩

end XCat3
